import Mathlib

/-!
Verification of the event-synchronization subsystem of the events-timeline
repository: a shallow embedding of the Event data model
(`src/domain/models/Event.ts`), the local event store
(`src/infrastructure/db/WatermelonEventStore.ts`), the remote adapter
(`src/infrastructure/api/SupabaseEventAPI.ts`) and the sync engine
(`SyncEngineImpl`), together with theorems settling the specification
claims about them.

Conventions of the embedding:
* the WatermelonDB `events` collection is a `List Event` in insertion
  order; a query with a `Q.where` clause and no sort clause filters the
  list in place (the source queries carry no `Q.sortBy`);
* `collection.find(id)` throwing on a missing id is `Except.error`;
* fallible I/O performed by the engine (the pending-events read, the
  remote push, the upsert) is injected as an explicit outcome parameter;
* `Date.now()` readings are passed in as explicit `Nat` parameters.
-/

namespace EventsTimeline

/-- Sync status of an event (`SyncStatus` enum in `Event.ts`):
`pending | synced | failed`. -/
inductive SyncStatus where
  | pending
  | synced
  | failed
deriving DecidableEq, Repr

/-- The `Event` record of the domain model (`Event.ts`).  `type` and
`payload` are opaque strings here (the claims never inspect them);
`syncedAt`, `error`, `retryCount`, `deviceId` are optional exactly as in
the TypeScript interface. -/
structure Event where
  id : String
  type : String
  payload : String
  timestamp : Nat
  status : SyncStatus
  createdAt : Nat
  syncedAt : Option Nat := none
  error : Option String := none
  retryCount : Option Nat := none
  deviceId : Option String := none
deriving DecidableEq, Repr

/-- The local event log: the WatermelonDB `events` collection, in
insertion order. -/
abbrev EventLog := List Event

/-- Embeds `collection.find(id)`: first record with the given id, if any. -/
def getById (log : EventLog) (id : String) : Option Event :=
  log.find? (fun e => e.id == id)

/-- Embeds `WatermelonEventStore.getPendingEvents(limit?)`: query
`Q.where("status", PENDING)` (no sort clause), then `slice(0, limit)`
when a limit is given. -/
def getPendingEvents (log : EventLog) (limit : Option Nat) : List Event :=
  let q := log.filter (fun e => e.status == SyncStatus.pending)
  match limit with
  | some l => q.take l
  | none => q

/-- Embeds `WatermelonEventStore.getFailedEvents(limit?)`: query
`Q.where("status", FAILED)` (no sort clause), then `slice(0, limit)`
when a limit is given. -/
def getFailedEvents (log : EventLog) (limit : Option Nat) : List Event :=
  let q := log.filter (fun e => e.status == SyncStatus.failed)
  match limit with
  | some l => q.take l
  | none => q

/-- The effective `syncedAt` written by `markEventsSynced`:
`new Date(syncedAt || Date.now())` — a missing *or zero* (falsy)
argument falls back to the current time. -/
def effSyncedAt (syncedAt : Option Nat) (now : Nat) : Nat :=
  match syncedAt with
  | some s => if s == 0 then now else s
  | none => now

/-- The per-record update performed by `markEventsSynced`: records whose
id is among `ids` get `status := synced` and `syncedAt := v`. -/
def syncedApply (ids : List String) (v : Nat) (e : Event) : Event :=
  if ids.contains e.id then
    { e with status := SyncStatus.synced, syncedAt := some v }
  else e

/-- Embeds `WatermelonEventStore.markEventsSynced(ids, syncedAt?)`: for each id,
`collection.find(id)` (throws when absent, failing the whole write) and
then an update setting `status := synced` and `syncedAt`.  `now` stands
for `Date.now()`. -/
def markEventsSynced (log : EventLog) (ids : List String)
    (syncedAt : Option Nat) (now : Nat) : Except String EventLog :=
  if ids.all (fun i => (log.find? (fun e => e.id == i)).isSome) then
    .ok (log.map (syncedApply ids (effSyncedAt syncedAt now)))
  else
    .error "Record not found"

/-- One entry of the `updates` argument of
`WatermelonEventStore.markEventsFailed`. -/
structure FailUpdate where
  id : String
  error : String
  retryCount : Nat
deriving DecidableEq, Repr

/-- The per-record update performed by `markEventsFailed`: a record
matched by an update gets `status := failed` with that update's error
message and retry count. -/
def failedApply (updates : List FailUpdate) (e : Event) : Event :=
  match updates.find? (fun u => u.id == e.id) with
  | some u =>
      { e with status := SyncStatus.failed,
               error := some u.error,
               retryCount := some u.retryCount }
  | none => e

/-- Embeds `WatermelonEventStore.markEventsFailed(updates)`: for each update,
`collection.find(id)` (throws when absent, failing the whole write) and
an update setting `status := failed`, `error` and `retryCount`. -/
def markEventsFailed (log : EventLog) (updates : List FailUpdate) :
    Except String EventLog :=
  if updates.all (fun u => (log.find? (fun e => e.id == u.id)).isSome) then
    .ok (log.map (failedApply updates))
  else
    .error "Record not found"

/-- One entry of the `updates` argument of
`WatermelonEventStore.updateEventStatusBatch`; optional fields are only
written when present, as in the source. -/
structure StatusUpdate where
  id : String
  status : SyncStatus
  syncedAt : Option Nat := none
  error : Option String := none
  retryCount : Option Nat := none
deriving DecidableEq, Repr

/-- Embeds `WatermelonEventStore.updateEventStatusBatch(updates)`: for each
update, `collection.find(id)` (throws when absent) and an update setting
`status` and whichever optional fields are present. -/
def updateEventStatusBatch (log : EventLog) (updates : List StatusUpdate) :
    Except String EventLog :=
  if updates.all (fun u => (log.find? (fun e => e.id == u.id)).isSome) then
    .ok (log.map (fun e =>
      match updates.find? (fun u => u.id == e.id) with
      | some u =>
          { e with status := u.status,
                   syncedAt := match u.syncedAt with
                               | some v => some v
                               | none => e.syncedAt,
                   error := match u.error with
                            | some v => some v
                            | none => e.error,
                   retryCount := match u.retryCount with
                                 | some v => some v
                                 | none => e.retryCount }
      | none => e))
  else
    .error "Record not found"

/-- Conflict strategy (`ConflictStrategy` enum in `SyncEngine.ts`). -/
inductive ConflictStrategy where
  | localWins
  | remoteWins
  | lastWriteWins
  | manual
deriving DecidableEq, Repr

/-- The sync-relevant configuration of `SyncEngineImpl`
(`SyncEngineConfig`). -/
structure SyncConfig where
  batchSize : Nat
  syncInterval : Nat
  maxRetryAttempts : Nat
  retryDelay : Nat
  exponentialBackoff : Bool
  conflictStrategy : ConflictStrategy
  wifiOnly : Bool
deriving DecidableEq, Repr

/-- Embeds `DEFAULT_CONFIG` of `SupabaseEventAPI.ts` (the `SyncEngineImpl`
module): batch 50, interval 30000, maxRetryAttempts 3, retryDelay 5000,
exponential backoff, last-write-wins strategy. -/
def DEFAULT_CONFIG : SyncConfig :=
  { batchSize := 50
    syncInterval := 30000
    maxRetryAttempts := 3
    retryDelay := 5000
    exponentialBackoff := true
    conflictStrategy := ConflictStrategy.lastWriteWins
    wifiOnly := false }

/-- A row of the remote `events` table (`EventRow` in `supabase.ts`);
only the id is relevant to the claims. -/
structure EventRow where
  id : String
deriving DecidableEq, Repr

/-- Response shape of `IRemoteEventAPI.pushEvents`: success flag, synced
ids, conflicts `{eventId, remoteEvent}` and errors `{eventId, error}`. -/
structure PushResponse where
  success : Bool
  syncedIds : List String
  conflicts : List (String × Event)
  errors : List (String × String)
deriving DecidableEq, Repr

/-- Outcome of the `remoteAPI.pushEvents` call as seen by the engine:
either the promise resolves with a response, or it rejects (`exn`). -/
inductive PushOutcome where
  | ok (resp : PushResponse)
  | exn (msg : String)
deriving DecidableEq, Repr

/-- Outcome of the Supabase upsert inside
`SupabaseEventAPI.pushEvents`: either an error, or a returned row set
(`data`, possibly null). -/
inductive UpsertOutcome where
  | err (msg : String)
  | ok (data : Option (List EventRow))
deriving DecidableEq, Repr

/-- Embeds `SupabaseEventAPI.pushEvents(events)`: if Supabase is not
configured, fail every event with a fixed message; if the upsert errors,
fail every event with the error message; otherwise succeed with the ids
of the returned rows.  Conflicts are the empty list on every path. -/
def pushEvents (configured : Bool) (events : List Event)
    (upsert : UpsertOutcome) : PushResponse :=
  if configured = false then
    { success := false
      syncedIds := []
      conflicts := []
      errors := events.map (fun e => (e.id, "Supabase is not configured")) }
  else
    match upsert with
    | .err m =>
        { success := false
          syncedIds := []
          conflicts := []
          errors := events.map (fun e => (e.id, m)) }
    | .ok data =>
        { success := true
          syncedIds := (data.getD []).map (fun r => r.id)
          conflicts := []
          errors := [] }

/-- One entry of `SyncResult.failedEvents`. -/
structure FailedEntry where
  event : Event
  error : String
  retryable : Bool
deriving DecidableEq, Repr

/-- One entry of `SyncResult.conflicts`. -/
structure ConflictEntry where
  event : Event
  conflictType : String
  resolution : Option String
deriving DecidableEq, Repr

/-- Embeds the `SyncResult` shape of `SyncEngine.ts`. -/
structure SyncResult where
  success : Bool
  syncedEvents : List Event
  failedEvents : List FailedEntry
  conflicts : List ConflictEntry
  duration : Nat
deriving DecidableEq, Repr

/-- Embeds `SyncEngineImpl.createEmptyResult()`. -/
def createEmptyResult : SyncResult :=
  { success := true
    syncedEvents := []
    failedEvents := []
    conflicts := []
    duration := 0 }

/-- The per-error loop of `SyncEngineImpl.syncEvents` (the
`for (const errorInfo of apiResult.errors)` loop): for each `{id,
error}` look the event up in the batch; when found, compute
`currentRetry = (event.retryCount ?? 0) + 1` and
`retryable = currentRetry < maxRetryAttempts`; call
`markEventsFailed` only when retryable; append the failed entry.  A
store rejection aborts the loop (propagating to the surrounding catch),
carrying the log state reached so far. -/
def processErrors (cfg : SyncConfig) (events : List Event)
    (errors : List (String × String)) (acc : List FailedEntry)
    (log : EventLog) :
    Except (String × EventLog) (List FailedEntry × EventLog) :=
  match errors with
  | [] => .ok (acc, log)
  | (eid, msg) :: rest =>
      match events.find? (fun e => e.id == eid) with
      | none => processErrors cfg events rest acc log
      | some ev =>
          let currentRetry := ev.retryCount.getD 0 + 1
          let retryable : Bool := decide (currentRetry < cfg.maxRetryAttempts)
          if currentRetry < cfg.maxRetryAttempts then
            match markEventsFailed log [⟨ev.id, msg, currentRetry⟩] with
            | .error m => .error (m, log)
            | .ok log' =>
                processErrors cfg events rest
                  (acc ++ [⟨ev, msg, retryable⟩]) log'
          else
            processErrors cfg events rest (acc ++ [⟨ev, msg, retryable⟩]) log

/-- Embeds `SyncEngineImpl.syncEvents(events)`: push the batch; mark the synced
ids synced; process per-event errors (marking retryable ones failed);
record every reported conflict found in the batch with
`conflictType := "version"` and `resolution := "local"`; overall
`success` iff no failed entries.  The catch branch (push rejection or a
store rejection propagating out of the try block) sets
`success := false` and replaces `failedEvents` with every batch event
carrying the thrown message and `retryable := true`; `syncedEvents`
keeps whatever was assigned before the throw.  `now` stands for the
`Date.now()` passed to `markEventsSynced`; `dur` for the measured
duration. -/
def syncEvents (cfg : SyncConfig) (log : EventLog) (events : List Event)
    (push : PushOutcome) (now dur : Nat) : SyncResult × EventLog :=
  match push with
  | .exn msg =>
      ({ success := false
         syncedEvents := []
         failedEvents := events.map (fun e =>
           { event := e, error := msg, retryable := true })
         conflicts := []
         duration := dur }, log)
  | .ok resp =>
      let syncStep : Except String EventLog :=
        if resp.syncedIds.isEmpty then .ok log
        else markEventsSynced log resp.syncedIds (some now) now
      match syncStep with
      | .error msg =>
          ({ success := false
             syncedEvents := []
             failedEvents := events.map (fun e =>
               { event := e, error := msg, retryable := true })
             conflicts := []
             duration := dur }, log)
      | .ok log1 =>
          let syncedEvents := events.filter (fun e =>
            resp.syncedIds.contains e.id)
          match processErrors cfg events resp.errors [] log1 with
          | .error (msg, log2) =>
              ({ success := false
                 syncedEvents := syncedEvents
                 failedEvents := events.map (fun e =>
                   { event := e, error := msg, retryable := true })
                 conflicts := []
                 duration := dur }, log2)
          | .ok (failed, log2) =>
              let conflicts := resp.conflicts.filterMap (fun c =>
                (events.find? (fun e => e.id == c.1)).map (fun le =>
                  { event := le
                    conflictType := "version"
                    resolution := some "local" }))
              ({ success := failed.isEmpty
                 syncedEvents := syncedEvents
                 failedEvents := failed
                 conflicts := conflicts
                 duration := dur }, log2)

/-- Engine state enum (`SyncState` in `SyncEngine.ts`). -/
inductive SyncState where
  | idle
  | syncing
  | paused
  | error
deriving DecidableEq, Repr

/-- The claim-relevant mutable state of a `SyncEngineImpl` instance:
the `state` enum, the `isPausedFlag`, the event log it owns, the
`consecutiveFailures` counter, and the errors delivered to the
sync-error subscribers (`handleError`). -/
structure EngineState where
  state : SyncState
  isPausedFlag : Bool
  log : EventLog
  consecutiveFailures : Nat
  deliveredErrors : List String
deriving DecidableEq, Repr

/-- Observable I/O of one `syncNow` call: whether the pending-events
read was attempted, and the batches pushed to the remote. -/
structure CycleTrace where
  readPending : Bool
  pushed : List (List Event)
deriving DecidableEq, Repr

/-- Embeds `SyncEngineImpl.syncNow()`: the `Syncing` and paused guards return
`createEmptyResult()` untouched; otherwise the engine reads up to
`batchSize` pending events (`readStore` injects the possibility of the
read rejecting), returns empty on an empty batch, and otherwise
delegates to `syncEvents`, updating `consecutiveFailures` and ending in
`Idle` or `Error`.  The catch branch delivers the error to the
sync-error subscribers and sets the state to `Error`, returning
`createEmptyResult()`. -/
def syncNow (cfg : SyncConfig) (s : EngineState)
    (readStore : Except String Unit) (push : PushOutcome) (now dur : Nat) :
    SyncResult × EngineState × CycleTrace :=
  if s.state = SyncState.syncing then
    (createEmptyResult, s, { readPending := false, pushed := [] })
  else if s.isPausedFlag then
    (createEmptyResult, s, { readPending := false, pushed := [] })
  else
    match readStore with
    | .error msg =>
        (createEmptyResult,
         { s with state := SyncState.error
                  deliveredErrors := s.deliveredErrors ++ [msg] },
         { readPending := true, pushed := [] })
    | .ok _ =>
        let pending := getPendingEvents s.log (some cfg.batchSize)
        if pending.isEmpty then
          (createEmptyResult, { s with state := SyncState.idle },
           { readPending := true, pushed := [] })
        else
          let out := syncEvents cfg s.log pending push now dur
          let cf := if out.1.success then 0 else s.consecutiveFailures + 1
          let st := if out.1.failedEvents.isEmpty then SyncState.idle
                    else SyncState.error
          (out.1,
           { s with log := out.2, consecutiveFailures := cf, state := st },
           { readPending := true, pushed := [pending] })

/-- Embeds `SyncEngineImpl.retryFailedEvents()`: read up to `batchSize` failed
events, reset them to `pending` via `updateEventStatusBatch`, then sync
that same batch (the original `failed` objects, with their old
`retryCount`).  A store rejection propagates (the method has no catch
of its own). -/
def retryFailedEvents (cfg : SyncConfig) (s : EngineState)
    (push : PushOutcome) (now dur : Nat) :
    Except String (SyncResult × EngineState) :=
  let failed := getFailedEvents s.log (some cfg.batchSize)
  if failed.isEmpty then
    .ok (createEmptyResult, s)
  else
    match updateEventStatusBatch s.log
        (failed.map (fun e => { id := e.id, status := SyncStatus.pending })) with
    | .error m => .error m
    | .ok log1 =>
        let out := syncEvents cfg log1 failed push now dur
        .ok (out.1, { s with log := out.2 })

/-- Embeds `SyncEngineImpl.getPendingConflicts()`: the source returns `[]`
unconditionally ("For now, we don't store conflicts"). -/
def getPendingConflicts (_s : EngineState) : List Event :=
  []

/-- Embeds `SyncEngineImpl.resolveConflict(eventId, resolution, resolvedData)`:
the source is a placeholder that only logs ("Manual conflict resolution
not yet implemented") and changes nothing. -/
def resolveConflict (s : EngineState) (_eventId : String)
    (_resolution : String) (_resolvedData : Option String) : EngineState :=
  s

/-! ## Concrete fixtures used by witnesses and counterexamples -/

/-- A pending local event with timestamp 10. -/
def evA : Event :=
  { id := "a", type := "ITEM_CREATED", payload := "p", timestamp := 10,
    status := SyncStatus.pending, createdAt := 1 }

/-- A pending local event with timestamp 5, created after `evA`. -/
def evB : Event :=
  { id := "b", type := "ITEM_CREATED", payload := "p", timestamp := 5,
    status := SyncStatus.pending, createdAt := 2 }

/-- A remote version of event `a` with a strictly greater timestamp. -/
def evRemoteA : Event :=
  { id := "a", type := "ITEM_CREATED", payload := "q", timestamp := 20,
    status := SyncStatus.synced, createdAt := 0, deviceId := some "other" }

/-- A failed event whose retry count has reached
`maxRetryAttempts - 1 = 2` under the default configuration. -/
def evMaxed : Event :=
  { id := "c", type := "ITEM_CREATED", payload := "p", timestamp := 7,
    status := SyncStatus.failed, createdAt := 3,
    error := some "earlier failure", retryCount := some 2 }

/-- The event `evMaxed` after `retryFailedEvents` resets it to `pending`. -/
def evMaxedPending : Event :=
  { evMaxed with status := SyncStatus.pending }

/-- The event `evA` after one retryable failure with message `boom`. -/
def evAFailed1 : Event :=
  { evA with status := SyncStatus.failed, error := some "boom",
             retryCount := some 1 }

/-- An idle, unpaused engine owning the log `[evA]`. -/
def sIdleA : EngineState :=
  { state := SyncState.idle, isPausedFlag := false, log := [evA],
    consecutiveFailures := 0, deliveredErrors := [] }

/-- An engine in the middle of a sync cycle. -/
def sSyncing : EngineState :=
  { state := SyncState.syncing, isPausedFlag := false, log := [evA],
    consecutiveFailures := 0, deliveredErrors := [] }

/-- An idle engine whose log holds the exhausted event `evMaxed`. -/
def sMaxed : EngineState :=
  { state := SyncState.idle, isPausedFlag := false, log := [evMaxed],
    consecutiveFailures := 0, deliveredErrors := [] }

/-- A push response reporting a per-event error for event `a`. -/
def respErrA : PushResponse :=
  { success := false, syncedIds := [], conflicts := [],
    errors := [("a", "boom")] }

/-- A push response reporting a per-event error for event `c`. -/
def respErrC : PushResponse :=
  { success := false, syncedIds := [], conflicts := [],
    errors := [("c", "boom")] }

/-- A push response reporting a conflict for event `a` against the newer
remote version `evRemoteA`. -/
def respConflictA : PushResponse :=
  { success := true, syncedIds := [], conflicts := [("a", evRemoteA)],
    errors := [] }

/-- The default configuration with the `Manual` conflict strategy
selected. -/
def manualConfig : SyncConfig :=
  { DEFAULT_CONFIG with conflictStrategy := ConflictStrategy.manual }

/-- Pairwise timestamp-ascending order on a list of events. -/
def timestampAscending : List Event → Bool
  | [] => true
  | [_] => true
  | a :: b :: rest =>
      decide (a.timestamp ≤ b.timestamp) && timestampAscending (b :: rest)

/-- Holds when the log's first record with the given id is marked
`failed` carrying the given retry count. -/
def markedFailed (log : EventLog) (id : String) (rc : Nat) : Bool :=
  match getById log id with
  | some e =>
      e.status == SyncStatus.failed && e.retryCount == some rc
  | none => false

/-! ## Theorems for the claims -/

/-- Claim C1 (confirmed): for an engine whose state is `Syncing`, and
likewise for an engine whose paused flag is set, `syncNow` returns the
empty successful result (success `true`, empty synced/failed/conflict
lists, duration 0) immediately: the pending-events read is not
attempted, nothing is pushed to the remote, and the engine state — its
event log included — is returned unchanged. -/
theorem syncNow_single_flight (cfg : SyncConfig) (s : EngineState)
    (readStore : Except String Unit) (push : PushOutcome) (now dur : Nat)
    (h : s.state = SyncState.syncing ∨ s.isPausedFlag = true) :
    syncNow cfg s readStore push now dur =
      (createEmptyResult, s, { readPending := false, pushed := [] }) ∧
    createEmptyResult =
      { success := true, syncedEvents := [], failedEvents := [],
        conflicts := [], duration := 0 } := by
  refine ⟨?_, rfl⟩
  by_cases hs : s.state = SyncState.syncing
  · simp [syncNow, hs]
  · rcases h with h | h
    · exact absurd h hs
    · simp [syncNow, hs, h]

/-- Witness for claim C1 at a concrete syncing engine. -/
theorem syncNow_single_flight_w :
    syncNow DEFAULT_CONFIG sSyncing (Except.ok ()) (PushOutcome.exn "down") 3 4 =
      (createEmptyResult, sSyncing, { readPending := false, pushed := [] }) ∧
    createEmptyResult =
      { success := true, syncedEvents := [], failedEvents := [],
        conflicts := [], duration := 0 } :=
  syncNow_single_flight DEFAULT_CONFIG sSyncing (Except.ok ())
    (PushOutcome.exn "down") 3 4 (Or.inl rfl)

/-- Claim C9 (confirmed): when a step inside the `syncNow` cycle throws
(here: the pending-events read rejects with `msg`), the exception is not
propagated: the error is delivered to the sync-error subscribers, the
state becomes `Error`, the log is untouched, and the returned result is
the empty result whose `success` field is `true`. -/
theorem syncNow_catch_empty_success (cfg : SyncConfig) (s : EngineState)
    (msg : String) (push : PushOutcome) (now dur : Nat)
    (h1 : s.state ≠ SyncState.syncing) (h2 : s.isPausedFlag = false) :
    syncNow cfg s (Except.error msg) push now dur =
      (createEmptyResult,
       { s with state := SyncState.error,
                deliveredErrors := s.deliveredErrors ++ [msg] },
       { readPending := true, pushed := [] }) ∧
    createEmptyResult.success = true ∧
    createEmptyResult.syncedEvents = [] ∧
    createEmptyResult.failedEvents = [] ∧
    createEmptyResult.conflicts = [] ∧
    createEmptyResult.duration = 0 ∧
    ({ s with state := SyncState.error,
              deliveredErrors := s.deliveredErrors ++ [msg] } : EngineState).log
      = s.log := by
  refine ⟨?_, rfl, rfl, rfl, rfl, rfl, rfl⟩
  simp [syncNow, h1, h2]

/-- Witness for claim C9 at a concrete idle engine. -/
theorem syncNow_catch_empty_success_w :
    syncNow DEFAULT_CONFIG sIdleA (Except.error "db gone")
        (PushOutcome.exn "down") 3 4 =
      (createEmptyResult,
       { sIdleA with state := SyncState.error,
                     deliveredErrors := sIdleA.deliveredErrors ++ ["db gone"] },
       { readPending := true, pushed := [] }) ∧
    createEmptyResult.success = true ∧
    createEmptyResult.syncedEvents = [] ∧
    createEmptyResult.failedEvents = [] ∧
    createEmptyResult.conflicts = [] ∧
    createEmptyResult.duration = 0 ∧
    ({ sIdleA with state := SyncState.error,
                   deliveredErrors := sIdleA.deliveredErrors ++ ["db gone"] }
        : EngineState).log = sIdleA.log :=
  syncNow_catch_empty_success DEFAULT_CONFIG sIdleA "db gone"
    (PushOutcome.exn "down") 3 4 (by intro h; cases h) rfl

/-- Counterexample to claim C7 as stated: a whole-batch transport
failure returns `success = false` with every batch event failed and
retryable, but the event log is returned unchanged — the batch is *not*
marked failed in the log; `evA` is still `pending` there. -/
theorem syncEvents_transport_log_untouched_ce :
    syncEvents DEFAULT_CONFIG [evA] [evA] (PushOutcome.exn "network down") 9 4 =
      ({ success := false, syncedEvents := [],
         failedEvents := [{ event := evA, error := "network down",
                            retryable := true }],
         conflicts := [], duration := 4 }, [evA]) ∧
    evA.status = SyncStatus.pending := ⟨rfl, rfl⟩

/-- Claim C7 (amended): if the push call itself throws, `syncEvents`
returns `success = false` with every event of the attempted batch in
`failedEvents` carrying the thrown error and `retryable = true`; the
event log, however, is left completely untouched (the events keep their
prior status and retry count). -/
theorem syncEvents_transport_failure (cfg : SyncConfig) (log : EventLog)
    (events : List Event) (msg : String) (now dur : Nat) :
    syncEvents cfg log events (PushOutcome.exn msg) now dur =
      ({ success := false, syncedEvents := [],
         failedEvents := events.map (fun e =>
           { event := e, error := msg, retryable := true }),
         conflicts := [], duration := dur }, log) := rfl

/-- Claim C10 (confirmed): `SupabaseEventAPI.pushEvents` is
all-or-nothing — every return has an empty conflict list, and is either
fully successful with no errors, or `success = false` with no synced
ids and exactly one error entry per input event (all carrying one
message). -/
theorem pushEvents_all_or_nothing (configured : Bool) (events : List Event)
    (upsert : UpsertOutcome) :
    (pushEvents configured events upsert).conflicts = [] ∧
    (((pushEvents configured events upsert).success = true ∧
      (pushEvents configured events upsert).errors = []) ∨
     ((pushEvents configured events upsert).success = false ∧
      (pushEvents configured events upsert).syncedIds = [] ∧
      ∃ m, (pushEvents configured events upsert).errors =
        events.map (fun e => (e.id, m)))) := by
  cases configured with
  | false =>
      exact ⟨rfl, Or.inr ⟨rfl, rfl, "Supabase is not configured", rfl⟩⟩
  | true =>
      cases upsert with
      | err m => exact ⟨rfl, Or.inr ⟨rfl, rfl, m, rfl⟩⟩
      | ok data => exact ⟨rfl, Or.inl ⟨rfl, rfl⟩⟩

/-- Counterexample to claim C8 as stated: under the `Manual` strategy, a
cycle whose push reports a conflict for event `a` records that conflict
in its result, yet `getPendingConflicts` on the resulting engine is
empty and `resolveConflict` leaves the engine (log included) unchanged —
the event is neither exposed nor re-queued. -/
theorem manual_conflict_unimplemented_ce :
    (syncNow manualConfig sIdleA (Except.ok ()) (PushOutcome.ok respConflictA)
        0 0).1.conflicts =
      [{ event := evA, conflictType := "version",
         resolution := some "local" }] ∧
    getPendingConflicts
      (syncNow manualConfig sIdleA (Except.ok ())
        (PushOutcome.ok respConflictA) 0 0).2.1 = [] ∧
    resolveConflict
        (syncNow manualConfig sIdleA (Except.ok ())
          (PushOutcome.ok respConflictA) 0 0).2.1 "a" "local" none =
      (syncNow manualConfig sIdleA (Except.ok ())
        (PushOutcome.ok respConflictA) 0 0).2.1 := ⟨rfl, rfl, rfl⟩

/-- Claim C8 (amended): for every engine state — whatever conflicts its
cycles have reported and whatever the strategy — `getPendingConflicts`
returns the empty list, and `resolveConflict` returns the engine state
unchanged: manual conflict resolution is unimplemented, so no conflict
is ever exposed, resolved, or re-queued as pending. -/
theorem conflict_management_stubbed (s : EngineState) (eventId res : String)
    (data : Option String) :
    getPendingConflicts s = [] ∧ resolveConflict s eventId res data = s :=
  ⟨rfl, rfl⟩

/-- Claim C6 (code bug): under the default configuration — whose
strategy is `LastWriteWins` — a conflict between local event `a`
(timestamp 10) and a remote version with strictly greater timestamp 20
is recorded with resolution `local`: the greater timestamp does not win
and no deviceId comparison happens, because the conflict branch of
`syncEvents` assigns `resolution: "local"` unconditionally. -/
theorem lww_resolution_ignores_timestamps :
    DEFAULT_CONFIG.conflictStrategy = ConflictStrategy.lastWriteWins ∧
    evA.timestamp = 10 ∧ evRemoteA.timestamp = 20 ∧
    (syncEvents DEFAULT_CONFIG [evA] [evA] (PushOutcome.ok respConflictA)
        0 0).1.conflicts =
      [{ event := evA, conflictType := "version",
         resolution := some "local" }] := ⟨rfl, rfl, rfl, rfl⟩

/-- Counterexample to claim C4 as stated: a log holding two pending
events in insertion order `[evA, evB]` with timestamps 10 and 5 — both
pending — is returned by `getPendingEvents` in that same order, which is
not timestamp-ascending: the source query has no sort clause. -/
theorem getPendingEvents_order_ce :
    getPendingEvents [evA, evB] (some 2) = [evA, evB] ∧
    timestampAscending (getPendingEvents [evA, evB] (some 2)) = false ∧
    evA.timestamp = 10 ∧ evB.timestamp = 5 ∧
    evA.status = SyncStatus.pending ∧ evB.status = SyncStatus.pending :=
  ⟨rfl, rfl, rfl, rfl, rfl, rfl⟩

/-- Claim C4 (amended): for every log and limit, `getPendingEvents`
returns exactly the events with status `pending` — and `getFailedEvents`
exactly those with status `failed` — truncated to at most `limit`
entries, in the log's own (insertion) order: no timestamp ordering is
applied. -/
theorem getPending_getFailed_spec (log : EventLog) (limit : Nat) :
    getPendingEvents log (some limit) =
      (log.filter (fun e => e.status == SyncStatus.pending)).take limit ∧
    (∀ e ∈ getPendingEvents log (some limit), e.status = SyncStatus.pending) ∧
    (getPendingEvents log (some limit)).length ≤ limit ∧
    getFailedEvents log (some limit) =
      (log.filter (fun e => e.status == SyncStatus.failed)).take limit ∧
    (∀ e ∈ getFailedEvents log (some limit), e.status = SyncStatus.failed) ∧
    (getFailedEvents log (some limit)).length ≤ limit := by
  refine ⟨rfl, ?_, ?_, rfl, ?_, ?_⟩
  · intro e he
    have h1 := List.mem_of_mem_take he
    have h2 := (List.mem_filter.mp h1).2
    simpa using h2
  · exact List.length_take_le limit _
  · intro e he
    have h1 := List.mem_of_mem_take he
    have h2 := (List.mem_filter.mp h1).2
    simpa using h2
  · exact List.length_take_le limit _

/-- Counterexample to claim C5 as stated: `markEventsSynced` called with
an id that is not in the log does not silently ignore it — the
underlying `collection.find` throws, so the whole call fails instead of
succeeding. -/
theorem markEventsSynced_missing_id_ce :
    markEventsSynced [evA] ["nope"] (some 5) 7 =
      Except.error "Record not found" := rfl

/-- Records are unchanged by `syncedApply` when their id is outside the
marked set. -/
theorem syncedApply_not_contained (ids : List String) (v : Nat) (e : Event)
    (h : ids.contains e.id = false) : syncedApply ids v e = e := by
  have h' : e.id ∉ ids := by simpa using h
  simp [syncedApply, h']

/-- The update `syncedApply` never changes the id of a record. -/
theorem syncedApply_id (ids : List String) (v : Nat) (e : Event) :
    (syncedApply ids v e).id = e.id := by
  unfold syncedApply
  split <;> rfl

/-- The update `syncedApply` is idempotent on every record. -/
theorem syncedApply_idem (ids : List String) (v : Nat) (e : Event) :
    syncedApply ids v (syncedApply ids v e) = syncedApply ids v e := by
  by_cases h1 : e.id ∈ ids
  · simp [syncedApply, h1]
  · simp [syncedApply, h1]

/-- Claim C5 (amended): when every id of `ids` is present in the log,
`markEventsSynced` succeeds and sets `status := synced` and the
effective `syncedAt` on exactly the events whose id is in `ids`
(records outside `ids` are untouched), and the operation is idempotent:
re-running it on its own output succeeds and changes nothing.  An id
that is absent from the log, however, makes the whole call fail (see
the counterexample). -/
theorem markEventsSynced_present_spec (log : EventLog) (ids : List String)
    (t now : Nat) (hall : ∀ i ∈ ids, ∃ e ∈ log, e.id = i) :
    markEventsSynced log ids (some t) now =
      Except.ok (log.map (syncedApply ids (effSyncedAt (some t) now))) ∧
    (∀ e ∈ log, ids.contains e.id = false →
      syncedApply ids (effSyncedAt (some t) now) e = e) ∧
    markEventsSynced (log.map (syncedApply ids (effSyncedAt (some t) now)))
        ids (some t) now =
      Except.ok (log.map (syncedApply ids (effSyncedAt (some t) now))) := by
  have hall' : ∀ i ∈ ids, (log.find? (fun e => e.id == i)).isSome = true := by
    intro i hi
    obtain ⟨e, he, heq⟩ := hall i hi
    exact List.find?_isSome.mpr ⟨e, he, by simp [heq]⟩
  have hfun : ∀ i : String,
      ((fun e => e.id == i) ∘ syncedApply ids (effSyncedAt (some t) now)) =
        (fun e => e.id == i) := by
    intro i
    funext e
    simp [Function.comp, syncedApply_id]
  have hfind : ∀ i : String,
      ((log.map (syncedApply ids (effSyncedAt (some t) now))).find?
        (fun e => e.id == i)) =
      (log.find? (fun e => e.id == i)).map
        (syncedApply ids (effSyncedAt (some t) now)) := by
    intro i
    rw [List.find?_map, hfun i]
  refine ⟨?_, ?_, ?_⟩
  · rw [markEventsSynced, if_pos (List.all_eq_true.mpr hall')]
  · intro e _ h
    exact syncedApply_not_contained ids _ e h
  · have hall2 : ∀ i ∈ ids,
        (((log.map (syncedApply ids (effSyncedAt (some t) now))).find?
          (fun e => e.id == i)).isSome) = true := by
      intro i hi
      rw [hfind i]
      obtain ⟨e, he⟩ := Option.isSome_iff_exists.mp (hall' i hi)
      rw [he]
      rfl
    have hcomp :
        (syncedApply ids (effSyncedAt (some t) now) ∘
          syncedApply ids (effSyncedAt (some t) now)) =
          syncedApply ids (effSyncedAt (some t) now) := by
      funext e
      exact syncedApply_idem ids _ e
    rw [markEventsSynced, if_pos (List.all_eq_true.mpr hall2)]
    rw [List.map_map, hcomp]

/-- Witness for the amended claim C5 at a concrete log. -/
theorem markEventsSynced_present_spec_w :
    markEventsSynced [evA, evB] ["a"] (some 5) 7 =
      Except.ok ([evA, evB].map (syncedApply ["a"] (effSyncedAt (some 5) 7))) ∧
    (∀ e ∈ [evA, evB], ["a"].contains e.id = false →
      syncedApply ["a"] (effSyncedAt (some 5) 7) e = e) ∧
    markEventsSynced ([evA, evB].map (syncedApply ["a"] (effSyncedAt (some 5) 7)))
        ["a"] (some 5) 7 =
      Except.ok ([evA, evB].map (syncedApply ["a"] (effSyncedAt (some 5) 7))) :=
  markEventsSynced_present_spec [evA, evB] ["a"] 5 7 (by decide)

/-- Claim C3 (code bug): an event whose `retryCount` has reached
`maxRetryAttempts - 1` (here 2, with the default limit 3) is *not*
excluded from automatic re-inclusion after its next failed attempt.
`retryFailedEvents` resets it to `pending` and the failed attempt
computes `newRetryCount = 3 ≥ maxRetryAttempts`, reports
`retryable = false`, and skips the failed-mark — so the event stays
`pending` with `retryCount = 2`, and the next automatic `syncNow` cycle
reads it and pushes it to the remote again. -/
theorem retry_bound_not_enforced :
    evMaxed.retryCount = some 2 ∧
    DEFAULT_CONFIG.maxRetryAttempts = 3 ∧
    retryFailedEvents DEFAULT_CONFIG sMaxed (PushOutcome.ok respErrC) 0 0 =
      Except.ok
        ({ success := false, syncedEvents := [],
           failedEvents := [{ event := evMaxed, error := "boom",
                              retryable := false }],
           conflicts := [], duration := 0 },
         { sMaxed with log := [evMaxedPending] }) ∧
    evMaxedPending.status = SyncStatus.pending ∧
    (syncNow DEFAULT_CONFIG { sMaxed with log := [evMaxedPending] }
        (Except.ok ()) (PushOutcome.ok respErrC) 0 0).2.2.pushed =
      [[evMaxedPending]] :=
  ⟨rfl, rfl, rfl, rfl, rfl⟩

/-- The update `failedApply` never changes the id of a record. -/
theorem failedApply_id (us : List FailUpdate) (e : Event) :
    (failedApply us e).id = e.id := by
  unfold failedApply
  split <;> rfl

/-- Looking a record up by id commutes with mapping an id-preserving
update over the log. -/
theorem getById_map_of_id_preserved (f : Event → Event)
    (hf : ∀ e, (f e).id = e.id) (log : EventLog) (i : String) :
    getById (log.map f) i = (getById log i).map f := by
  unfold getById
  rw [List.find?_map]
  have hfun : ((fun e => e.id == i) ∘ f) = (fun e => e.id == i) := by
    funext e
    simp [Function.comp, hf]
  rw [hfun]

/-- Finding in a one-element list succeeds exactly on that element. -/
theorem find?_singleton_of_pos {α : Type} (p : α → Bool) (a : α)
    (h : p a = true) : [a].find? p = some a :=
  List.find?_cons_of_pos [] h

/-- Finding in a one-element list fails when the element is rejected. -/
theorem find?_singleton_of_neg {α : Type} (p : α → Bool) (a : α)
    (h : p a = false) : [a].find? p = none := by
  rw [List.find?_cons_of_neg [] (by simp [h])]
  rfl

/-- The record update of a singleton `markEventsFailed` on a matching
record. -/
theorem failedApply_singleton_pos (u : FailUpdate) (e : Event)
    (h : (u.id == e.id) = true) :
    failedApply [u] e =
      { e with status := SyncStatus.failed, error := some u.error,
               retryCount := some u.retryCount } := by
  unfold failedApply
  rw [find?_singleton_of_pos (fun v => v.id == e.id) u h]

/-- The record update of a singleton `markEventsFailed` on a
non-matching record is the identity. -/
theorem failedApply_singleton_neg (u : FailUpdate) (e : Event)
    (h : (u.id == e.id) = false) : failedApply [u] e = e := by
  unfold failedApply
  rw [find?_singleton_of_neg (fun v => v.id == e.id) u h]

/-- A successful singleton `markEventsFailed` leaves the log marked
failed, at the updated id, with the updated retry count. -/
theorem markEventsFailed_single_marks (log : EventLog) (u : FailUpdate)
    (log' : EventLog) (h : markEventsFailed log [u] = Except.ok log') :
    markedFailed log' u.id u.retryCount = true := by
  unfold markEventsFailed at h
  by_cases hc :
      ([u].all (fun v => (log.find? (fun e => e.id == v.id)).isSome)) = true
  · rw [if_pos hc] at h
    have hlog : log' = log.map (failedApply [u]) := by
      cases h
      rfl
    have hsome : (log.find? (fun e => e.id == u.id)).isSome = true := by
      have := List.all_eq_true.mp hc u (List.mem_cons_self u [])
      simpa using this
    obtain ⟨e0, he0⟩ := Option.isSome_iff_exists.mp hsome
    have hid : e0.id = u.id := by
      have := List.find?_some he0
      simpa using this
    have hbeq : (u.id == e0.id) = true := by simp [hid]
    subst hlog
    unfold markedFailed
    rw [getById_map_of_id_preserved (failedApply [u]) (failedApply_id [u])]
    unfold getById
    rw [he0, Option.map_some', failedApply_singleton_pos u e0 hbeq]
    simp
  · rw [if_neg hc] at h
    cases h

/-- A successful singleton `markEventsFailed` for a different id
preserves an existing failed-mark. -/
theorem markEventsFailed_single_preserves (log : EventLog) (u : FailUpdate)
    (log' : EventLog) (j : String) (rc : Nat)
    (h : markEventsFailed log [u] = Except.ok log') (hne : u.id ≠ j)
    (hm : markedFailed log j rc = true) : markedFailed log' j rc = true := by
  unfold markEventsFailed at h
  by_cases hc :
      ([u].all (fun v => (log.find? (fun e => e.id == v.id)).isSome)) = true
  · rw [if_pos hc] at h
    have hlog : log' = log.map (failedApply [u]) := by
      cases h
      rfl
    subst hlog
    unfold markedFailed at hm ⊢
    rw [getById_map_of_id_preserved (failedApply [u]) (failedApply_id [u])]
    cases he0 : getById log j with
    | none => rw [he0] at hm; cases hm
    | some e0 =>
        rw [he0] at hm
        have hid : e0.id = j := by
          have := List.find?_some he0
          simpa using this
        have hbeq : (u.id == e0.id) = false := by
          rw [hid]
          simpa using hne
        rw [Option.map_some', failedApply_singleton_neg u e0 hbeq]
        exact hm
  · rw [if_neg hc] at h
    cases h

/-- Entries already accumulated survive to the output of
`processErrors`. -/
theorem processErrors_acc_mem (cfg : SyncConfig) (events : List Event)
    (errors : List (String × String)) (acc : List FailedEntry)
    (log : EventLog) (out : List FailedEntry) (log' : EventLog)
    (h : processErrors cfg events errors acc log = Except.ok (out, log'))
    (x : FailedEntry) (hx : x ∈ acc) : x ∈ out := by
  induction errors generalizing acc log with
  | nil =>
      unfold processErrors at h
      cases h
      exact hx
  | cons p rest ih =>
      obtain ⟨eid, msg⟩ := p
      unfold processErrors at h
      cases hf : events.find? (fun e => e.id == eid) with
      | none =>
          simp only [hf] at h
          exact ih acc log h hx
      | some ev =>
          simp only [hf] at h
          split at h
          · cases hmk : markEventsFailed log
                [⟨ev.id, msg, ev.retryCount.getD 0 + 1⟩] with
            | error m =>
                rw [hmk] at h
                exact Except.noConfusion h
            | ok log2 =>
                rw [hmk] at h
                exact ih _ log2 h (List.mem_append_left _ hx)
          · exact ih _ log h (List.mem_append_left _ hx)

/-- Every error entry of the response whose id resolves to a batch
event contributes its failed-entry — with `retryable` computed as
`newRetryCount < maxRetryAttempts` — to the output of
`processErrors`. -/
theorem processErrors_mem (cfg : SyncConfig) (events : List Event)
    (errors : List (String × String)) (acc : List FailedEntry)
    (log : EventLog) (out : List FailedEntry) (log' : EventLog)
    (h : processErrors cfg events errors acc log = Except.ok (out, log'))
    (eid msg : String) (ev : Event) (hmem : (eid, msg) ∈ errors)
    (hfind : events.find? (fun e => e.id == eid) = some ev) :
    ({ event := ev, error := msg,
       retryable :=
         decide (ev.retryCount.getD 0 + 1 < cfg.maxRetryAttempts) }
      : FailedEntry) ∈ out := by
  induction errors generalizing acc log with
  | nil => cases hmem
  | cons p rest ih =>
      obtain ⟨eid', msg'⟩ := p
      unfold processErrors at h
      rcases List.mem_cons.mp hmem with hhead | htail
      · cases hhead
        simp only [hfind] at h
        split at h
        · cases hmk : markEventsFailed log
              [⟨ev.id, msg, ev.retryCount.getD 0 + 1⟩] with
          | error m =>
              rw [hmk] at h
              exact Except.noConfusion h
          | ok log2 =>
              rw [hmk] at h
              exact processErrors_acc_mem cfg events rest _ log2 out log' h _
                (List.mem_append_right acc (List.mem_cons_self _ _))
        · exact processErrors_acc_mem cfg events rest _ log out log' h _
            (List.mem_append_right acc (List.mem_cons_self _ _))
      · cases hf' : events.find? (fun e => e.id == eid') with
        | none =>
            simp only [hf'] at h
            exact ih acc log h htail
        | some ev' =>
            simp only [hf'] at h
            split at h
            · cases hmk : markEventsFailed log
                  [⟨ev'.id, msg', ev'.retryCount.getD 0 + 1⟩] with
              | error m =>
                  rw [hmk] at h
                  exact Except.noConfusion h
              | ok log2 =>
                  rw [hmk] at h
                  exact ih _ log2 h htail
            · exact ih _ log h htail

/-- A failed-mark that matches the batch lookup for its id survives the
rest of `processErrors`: every later write to that id re-asserts the
same status and retry count. -/
theorem processErrors_preserves_mark (cfg : SyncConfig)
    (events : List Event) (errors : List (String × String))
    (acc : List FailedEntry) (log : EventLog) (out : List FailedEntry)
    (log' : EventLog)
    (h : processErrors cfg events errors acc log = Except.ok (out, log'))
    (id : String) (ev : Event)
    (hfind : events.find? (fun e => e.id == id) = some ev)
    (hm : markedFailed log id (ev.retryCount.getD 0 + 1) = true) :
    markedFailed log' id (ev.retryCount.getD 0 + 1) = true := by
  induction errors generalizing acc log with
  | nil =>
      unfold processErrors at h
      cases h
      exact hm
  | cons p rest ih =>
      obtain ⟨eid', msg'⟩ := p
      unfold processErrors at h
      cases hf' : events.find? (fun e => e.id == eid') with
      | none =>
          simp only [hf'] at h
          exact ih acc log h hm
      | some ev' =>
          simp only [hf'] at h
          split at h
          · cases hmk : markEventsFailed log
                [⟨ev'.id, msg', ev'.retryCount.getD 0 + 1⟩] with
            | error m =>
                rw [hmk] at h
                exact Except.noConfusion h
            | ok log2 =>
                rw [hmk] at h
                by_cases hid : ev'.id = id
                · have heq1 : ev'.id = eid' := by
                    simpa using List.find?_some hf'
                  have heid : eid' = id := by rw [← heq1, hid]
                  subst heid
                  have hev : ev' = ev := by
                    have := hf'.symm.trans hfind
                    injection this
                  subst hev
                  have hmark := markEventsFailed_single_marks log _ log2 hmk
                  rw [hid] at hmark
                  exact ih _ log2 h hmark
                · have hmark :=
                    markEventsFailed_single_preserves log _ log2 id _ hmk hid hm
                  exact ih _ log2 h hmark
          · exact ih _ log h hm

/-- A retryable error entry of the response leaves its event marked
failed — with the incremented retry count — in the final log of
`processErrors`. -/
theorem processErrors_marked (cfg : SyncConfig) (events : List Event)
    (errors : List (String × String)) (acc : List FailedEntry)
    (log : EventLog) (out : List FailedEntry) (log' : EventLog)
    (h : processErrors cfg events errors acc log = Except.ok (out, log'))
    (eid msg : String) (ev : Event) (hmem : (eid, msg) ∈ errors)
    (hfind : events.find? (fun e => e.id == eid) = some ev)
    (hr : ev.retryCount.getD 0 + 1 < cfg.maxRetryAttempts) :
    markedFailed log' ev.id (ev.retryCount.getD 0 + 1) = true := by
  induction errors generalizing acc log with
  | nil => cases hmem
  | cons p rest ih =>
      obtain ⟨eid', msg'⟩ := p
      unfold processErrors at h
      rcases List.mem_cons.mp hmem with hhead | htail
      · cases hhead
        simp only [hfind] at h
        split at h
        · cases hmk : markEventsFailed log
              [⟨ev.id, msg, ev.retryCount.getD 0 + 1⟩] with
          | error m =>
              rw [hmk] at h
              exact Except.noConfusion h
          | ok log2 =>
              rw [hmk] at h
              have hmark := markEventsFailed_single_marks log _ log2 hmk
              have hfind2 :
                  events.find? (fun e => e.id == ev.id) = some ev := by
                have hida : ev.id = eid := by
                  simpa using List.find?_some hfind
                rw [hida]
                exact hfind
              exact processErrors_preserves_mark cfg events rest _ log2 out
                log' h ev.id ev hfind2 hmark
        · rename_i hr'
          exact absurd hr hr'
      · cases hf' : events.find? (fun e => e.id == eid') with
        | none =>
            simp only [hf'] at h
            exact ih acc log h htail
        | some ev' =>
            simp only [hf'] at h
            split at h
            · cases hmk : markEventsFailed log
                  [⟨ev'.id, msg', ev'.retryCount.getD 0 + 1⟩] with
              | error m =>
                  rw [hmk] at h
                  exact Except.noConfusion h
              | ok log2 =>
                  rw [hmk] at h
                  exact ih _ log2 h htail
            · exact ih _ log h htail

/-- When every error entry of the response is non-retryable (its event
has exhausted the retry budget), `processErrors` performs no log write
at all. -/
theorem processErrors_no_writes (cfg : SyncConfig) (events : List Event)
    (errors : List (String × String)) (acc : List FailedEntry)
    (log : EventLog) (out : List FailedEntry) (log' : EventLog)
    (h : processErrors cfg events errors acc log = Except.ok (out, log'))
    (hall : ∀ p ∈ errors, ∀ w,
      events.find? (fun e => e.id == p.1) = some w →
      ¬ (w.retryCount.getD 0 + 1 < cfg.maxRetryAttempts)) :
    log' = log := by
  induction errors generalizing acc log with
  | nil =>
      unfold processErrors at h
      cases h
      rfl
  | cons p rest ih =>
      obtain ⟨eid', msg'⟩ := p
      unfold processErrors at h
      cases hf' : events.find? (fun e => e.id == eid') with
      | none =>
          simp only [hf'] at h
          exact ih acc log h
            (fun q hq w hw => hall q (List.mem_cons_of_mem _ hq) w hw)
      | some ev' =>
          simp only [hf'] at h
          split at h
          · rename_i hr
            exact absurd hr (hall (eid', msg') (List.mem_cons_self _ _) ev' hf')
          · exact ih _ log h
              (fun q hq w hw => hall q (List.mem_cons_of_mem _ hq) w hw)

/-- Claim C2 (confirmed): when the store writes of a `syncEvents` cycle
succeed (`hs`, `hp`), then for every per-event error `(eid, msg)` of the
push response whose id resolves to batch event `ev`, the result's
failed-events list — which is exactly the list accumulated by the error
loop — contains the entry for `ev` with the message and
`retryable = (newRetryCount < maxRetryAttempts)` where
`newRetryCount = (retryCount ?? 0) + 1`; the event is marked failed in
the log with exactly that incremented retry count when retryable, and
when no error entry is retryable the error loop writes nothing to the
log. -/
theorem syncEvents_per_event_error (cfg : SyncConfig)
    (log log1 log2 : EventLog) (events : List Event) (resp : PushResponse)
    (now dur : Nat) (failed : List FailedEntry)
    (hs : (if resp.syncedIds.isEmpty then Except.ok log
           else markEventsSynced log resp.syncedIds (some now) now) =
          Except.ok log1)
    (hp : processErrors cfg events resp.errors [] log1 =
          Except.ok (failed, log2))
    (eid msg : String) (ev : Event) (hmem : (eid, msg) ∈ resp.errors)
    (hfind : events.find? (fun e => e.id == eid) = some ev) :
    (syncEvents cfg log events (PushOutcome.ok resp) now dur).1.failedEvents
      = failed ∧
    (syncEvents cfg log events (PushOutcome.ok resp) now dur).2 = log2 ∧
    ({ event := ev, error := msg,
       retryable :=
         decide (ev.retryCount.getD 0 + 1 < cfg.maxRetryAttempts) }
      : FailedEntry) ∈ failed ∧
    (ev.retryCount.getD 0 + 1 < cfg.maxRetryAttempts →
      markedFailed log2 ev.id (ev.retryCount.getD 0 + 1) = true) ∧
    ((∀ p ∈ resp.errors, ∀ w,
        events.find? (fun e => e.id == p.1) = some w →
        ¬ (w.retryCount.getD 0 + 1 < cfg.maxRetryAttempts)) →
      log2 = log1) := by
  have heq : syncEvents cfg log events (PushOutcome.ok resp) now dur =
      ({ success := failed.isEmpty,
         syncedEvents := events.filter (fun e => resp.syncedIds.contains e.id),
         failedEvents := failed,
         conflicts := resp.conflicts.filterMap (fun c =>
           (events.find? (fun e => e.id == c.1)).map (fun le =>
             { event := le, conflictType := "version",
               resolution := some "local" })),
         duration := dur }, log2) := by
    simp only [syncEvents, hs, hp]
  refine ⟨by rw [heq], by rw [heq], ?_, ?_, ?_⟩
  · exact processErrors_mem cfg events resp.errors [] log1 failed log2 hp
      eid msg ev hmem hfind
  · intro hr
    exact processErrors_marked cfg events resp.errors [] log1 failed log2 hp
      eid msg ev hmem hfind hr
  · intro hall
    exact processErrors_no_writes cfg events resp.errors [] log1 failed log2
      hp hall

/-- Witness for claim C2: a pending event with no prior retries fails
with message `boom` under the default limit of 3 — the failed entry is
retryable and the log records retry count 1. -/
theorem syncEvents_per_event_error_w :
    (syncEvents DEFAULT_CONFIG [evA] [evA] (PushOutcome.ok respErrA)
        0 0).1.failedEvents =
      [{ event := evA, error := "boom", retryable := true }] ∧
    (syncEvents DEFAULT_CONFIG [evA] [evA] (PushOutcome.ok respErrA) 0 0).2
      = [evAFailed1] ∧
    ({ event := evA, error := "boom", retryable := true } : FailedEntry) ∈
      [({ event := evA, error := "boom", retryable := true } : FailedEntry)] ∧
    markedFailed [evAFailed1] evA.id (evA.retryCount.getD 0 + 1) = true := by
  have h := syncEvents_per_event_error DEFAULT_CONFIG [evA] [evA]
    [evAFailed1] [evA] respErrA 0 0
    [{ event := evA, error := "boom", retryable := true }]
    rfl rfl "a" "boom" evA (List.mem_cons_self _ _) rfl
  exact ⟨h.1, h.2.1, h.2.2.1, h.2.2.2.1 (by decide)⟩

end EventsTimeline
